import Mathlib

/-!
Shallow embedding of the dual-backend arXiv search/download client
(`src/arxiv_search.py`, `src/client.py`) and proofs about its
query building, response normalization, configuration state and
batch-download control flow.
-/

namespace ArxivClient

/-! ## String helpers mirroring the Python primitives used by the source.

Python `str.split()` (no argument) splits on runs of whitespace and drops
empty tokens; `str.strip()` trims whitespace on both ends; `s.split(sep)`
for a one-character separator cuts at every occurrence.  These are embedded
as structural recursions over the character list so that every concrete
query evaluates inside the kernel. -/

/-- One step of Python `str.split()`: accumulate non-whitespace runs. -/
def splitWsAux : List Char → List Char → List String
  | [], acc => if acc.isEmpty then [] else [String.mk acc.reverse]
  | c :: cs, acc =>
    if c.isWhitespace then
      if acc.isEmpty then splitWsAux cs []
      else String.mk acc.reverse :: splitWsAux cs []
    else splitWsAux cs (c :: acc)

/-- Python `str.split()` with no argument. -/
def pySplitWs (s : String) : List String := splitWsAux s.data []

/-- Python `str.strip()` on a character list. -/
def trimChars (l : List Char) : List Char :=
  ((l.dropWhile Char.isWhitespace).reverse.dropWhile Char.isWhitespace).reverse

/-- Python `str.strip()`. -/
def pyStrip (s : String) : String := String.mk (trimChars s.data)

/-- One step of Python `s.split(sep)` for a single-character separator. -/
def splitOnCharAux (sep : Char) : List Char → List Char → List String
  | [], acc => [String.mk acc.reverse]
  | c :: cs, acc =>
    if c = sep then String.mk acc.reverse :: splitOnCharAux sep cs []
    else splitOnCharAux sep cs (c :: acc)

/-- Python `s.split(sep)` for a single-character separator. -/
def splitOnChar (sep : Char) (s : String) : List String := splitOnCharAux sep s.data []

/-- Truthiness of a Python optional year (`None` and `0` are falsy). -/
def pyTruthyNat : Option Nat → Bool
  | none => false
  | some n => n != 0

/-! ## QueryBuilder, server module variant (`arxiv_search.construct_query`).

`construct_query` splits the keyword string, strips each token, drops empty
tokens, and builds one clause per token: `(ti:k AND abs:k)` in `"precise"`
mode, `(ti:k OR abs:k)` otherwise; multi-token lists are joined with
`" AND "`, and a dedicated branch handles the one-token case. -/

/-- The token list `[k.strip() for k in keywords.split() if k.strip()]`. -/
def pyTokens (keywords : String) : List String :=
  ((pySplitWs keywords).map pyStrip).filter (fun k => k ≠ "")

/-- Precise-mode per-token clause `(ti:k AND abs:k)`. -/
def preciseClause (k : String) : String := "(ti:" ++ k ++ " AND abs:" ++ k ++ ")"

/-- Fuzzy-mode per-token clause `(ti:k OR abs:k)`. -/
def fuzzyClause (k : String) : String := "(ti:" ++ k ++ " OR abs:" ++ k ++ ")"

/-- Per-token clause as selected by `search_mode`. -/
def modeClause (search_mode k : String) : String :=
  if search_mode = "precise" then preciseClause k else fuzzyClause k

/-- Body of `arxiv_search.construct_query` on the split token list: the
empty case, the dedicated single-keyword branch, and the general
multi-keyword path. -/
def constructQueryList (keyword_list : List String) (search_mode : String) : String :=
  match keyword_list with
  | [] => ""
  | [k] =>
    if search_mode = "precise" then preciseClause k else fuzzyClause k
  | k1 :: k2 :: ks =>
    String.intercalate " AND " ((k1 :: k2 :: ks).map (modeClause search_mode))

/-- `arxiv_search.construct_query`. -/
def construct_query (keywords : String) (search_mode : String) : String :=
  constructQueryList (pyTokens keywords) search_mode

/-- The general multi-keyword path of `construct_query`, applied to an
arbitrary token list: per-token clauses joined with `" AND "`. -/
def generalQueryPath (search_mode : String) (kl : List String) : String :=
  String.intercalate " AND " (kl.map (modeClause search_mode))

/-! ## QueryBuilder, client direct-mode variant
(`client.MainWindow.search_via_arxiv_api`, query construction part).

The client splits the keyword string, wraps each term as `all:"term"`,
joins with `" AND "` in precise mode and `" OR "` in fuzzy mode, and then
appends a `submittedDate` range clause depending on which years are set. -/

/-- The per-term clause `all:"term"` of the client's direct-mode builder. -/
def allClause (term : String) : String := "all:\"" ++ term ++ "\""

/-- The keyword part of the client's direct-mode query. -/
def arxivApiBase (keywords search_mode : String) : String :=
  let query_terms := pySplitWs keywords
  if search_mode = "precise" then
    String.intercalate " AND " (query_terms.map allClause)
  else
    String.intercalate " OR " (query_terms.map allClause)

/-- The full `search_query` string built by `search_via_arxiv_api`,
including the year-range clause. -/
def searchQueryDirect (keywords search_mode : String)
    (start_year end_year : Option Nat) : String :=
  let query := arxivApiBase keywords search_mode
  if pyTruthyNat start_year && pyTruthyNat end_year then
    query ++ " AND submittedDate:[" ++ toString (start_year.getD 0) ++ "0101 TO "
      ++ toString (end_year.getD 0) ++ "1231]"
  else if pyTruthyNat start_year then
    query ++ " AND submittedDate:[" ++ toString (start_year.getD 0) ++ "0101 TO 99991231]"
  else if pyTruthyNat end_year then
    query ++ " AND submittedDate:[00010101 TO " ++ toString (end_year.getD 0) ++ "1231]"
  else
    query

/-! ## ResponseNormalizer, feed variant
(`client.MainWindow.parse_arxiv_api_response`).

The XML document is modelled as `Option (List XEntry)`: `none` stands for a
document `xml.etree.ElementTree.fromstring` cannot parse, `some entries`
for a parsed feed with its list of `entry` nodes in document order.  Inside
an `XEntry`, `Option String` fields stand for a child node that may be
missing or have no text (Python then raises `AttributeError` on `.text` /
`.strip()`, which the shared `except` turns into a whole-parse failure). -/

/-- One `link` node of a feed entry: its `title`, `type` and `href`
attributes, each possibly absent. -/
structure XLink where
  ltitle : Option String
  ltype : Option String
  lhref : Option String

/-- One `entry` node of the feed.  `idText = some t` means the `id` child
exists and has text `t` (itself optional), `none` means it is absent. -/
structure XEntry where
  title : Option String
  summary : Option String
  published : Option String
  updated : Option String
  authors : List (Option String)
  links : List XLink
  idText : Option (Option String)
  categories : List (Option String)
  doi : Option String
  journal_ref : Option String

/-- The normalized record built by the client for each feed entry. -/
structure Paper where
  title : String
  authors : List String
  summary : String
  published : String
  updated : String
  entry_id : Option String
  pdf_url : Option String
  categories : List String
  doi : String
  journal_ref : String
deriving DecidableEq

/-- `node.text.strip()` on a required child: a missing node (or missing
text) raises, aborting the parse. -/
def reqText : Option String → Except Unit String
  | none => .error ()
  | some s => .ok (pyStrip s)

/-- `s.split('T')[0] if 'T' in s else s`: truncate a date to its date
portion. -/
def stripTimeOfDay (s : String) : String :=
  if s.data.any (fun c => c = 'T') then (splitOnChar 'T' s).headD s else s

/-- First link whose `title` is `pdf` or whose `type` is
`application/pdf`; its `href` (possibly absent) becomes the pdf url. -/
def findPdfUrl : List XLink → Option String
  | [] => none
  | l :: ls =>
    if l.ltitle = some "pdf" || l.ltype = some "application/pdf" then l.lhref
    else findPdfUrl ls

/-- A `category` node's `term` attribute is kept only when present and
non-empty (`if term:`). -/
def keptCategory : Option String → Option String
  | some t => if t = "" then none else some t
  | none => none

/-- DOI / journal-ref extension field: kept (stripped) only when the node
exists with non-empty text, else `"N/A"`. -/
def extensionField : Option String → String
  | some s => if s ≠ "" then pyStrip s else "N/A"
  | none => "N/A"

/-- The author loop: each `author` node's `name` child is read with
`.text.strip()`, so a missing name raises and propagates. -/
def readAuthors : List (Option String) → Except Unit (List String)
  | [] => .ok []
  | a :: as =>
    match reqText a with
    | .error u => .error u
    | .ok name =>
      match readAuthors as with
      | .error u => .error u
      | .ok names => .ok (name :: names)

/-- Normalization of one feed entry.  The required reads happen in the
order of the source (`title`, `summary`, `published`, `updated`, then the
author names); the first missing one raises and the error propagates. -/
def parseEntry (e : XEntry) : Except Unit Paper :=
  match reqText e.title with
  | .error u => .error u
  | .ok title =>
  match reqText e.summary with
  | .error u => .error u
  | .ok summary =>
  match reqText e.published with
  | .error u => .error u
  | .ok published =>
  match reqText e.updated with
  | .error u => .error u
  | .ok updated =>
  match readAuthors e.authors with
  | .error u => .error u
  | .ok authors =>
    .ok
      { title := title
        authors := authors
        summary := summary
        published := stripTimeOfDay published
        updated := stripTimeOfDay updated
        entry_id := match e.idText with
          | none => some ""
          | some t => t
        pdf_url := findPdfUrl e.links
        categories := e.categories.filterMap keptCategory
        doi := extensionField e.doi
        journal_ref := extensionField e.journal_ref }

/-- The entry loop: entries are normalized in input order, and an
exception raised for any entry propagates out of the loop. -/
def parseEntries : List XEntry → Except Unit (List Paper)
  | [] => .ok []
  | e :: es =>
    match parseEntry e with
    | .error u => .error u
    | .ok p =>
      match parseEntries es with
      | .error u => .error u
      | .ok ps => .ok (p :: ps)

/-- `parse_arxiv_api_response`: an unparsable document is a whole-call
failure; otherwise the entries are normalized in order, and any exception
raised for one entry fails the whole call (so on error no record at all is
produced). -/
def parse_arxiv_api_response (xml : Option (List XEntry)) : Except Unit (List Paper) :=
  match xml with
  | none => .error ()
  | some entries => parseEntries entries

/-! ## ResponseNormalizer, envelope variant
(`client.MainWindow.display_results`).

The body handed to `display_results` is modelled as `Option Json`:
`none` when `json.loads` raises, `some v` for the decoded value.  The
outcome distinguishes the three user-visible terminal states of the
function: the generic parse-failure branch (`except` handler), the
backend-reported failure with its message, and success with the `papers`
value. -/

/-- Decoded JSON values. -/
inductive Json where
  | null
  | bool (b : Bool)
  | num (n : Int)
  | str (s : String)
  | arr (elems : List Json)
  | obj (fields : List (String × Json))

/-- Python truthiness of a decoded JSON value. -/
def Json.truthy : Json → Bool
  | .null => false
  | .bool b => b
  | .num n => n != 0
  | .str s => s ≠ ""
  | .arr l => !l.isEmpty
  | .obj fs => !fs.isEmpty

/-- Whether the decoded value is a JSON object (a Python `dict`, the only
shape on which `.get` is defined). -/
def Json.isObj : Json → Bool
  | .obj _ => true
  | _ => false

/-- Python `len()` on a decoded JSON value; `none` when `len` raises. -/
def jsonLen : Json → Option Nat
  | .arr l => some l.length
  | .str s => some s.length
  | .obj fs => some fs.length
  | _ => none

/-- User-visible terminal state of `display_results`. -/
inductive DisplayResult where
  | parseError
  | backendError (msg : String)
  | ok (papers : Json)

/-- `display_results`: a body that does not decode, or decodes to a
non-object (so `response.get` raises), or produces a failure while being
displayed, ends in the generic parse-error branch; `success` falsy ends in
the backend-error branch with the served (or default) message; otherwise
the `papers` value (default `[]`) is displayed. -/
def display_results (data : Option Json) : DisplayResult :=
  match data with
  | none => .parseError
  | some response =>
    match response with
    | .obj fields =>
      if ((fields.lookup "success").getD (.bool false)).truthy then
        let papers := (fields.lookup "papers").getD (.arr [])
        match jsonLen papers with
        | some _ => .ok papers
        | none => .parseError
      else
        match (fields.lookup "error").getD (.str "未知错误") with
        | .str m => .backendError m
        | _ => .parseError
    | _ => .parseError

/-! ## Configuration state
(`client.MainWindow.load_config`, `client.MainWindow.switch_mode`,
`client.ConfigDialog.get_active_api_key`). -/

/-- Snapshot of the persisted settings store read by `load_config`
(after the per-key defaults have been applied). -/
structure Settings where
  serverUrl : String
  apiKey : String
  useDirectArxiv : Bool
  useLocalNetwork : Bool
  localServerUrl : String
  localApiKey : String
  externalServerUrl : String
  externalApiKey : String

/-- The main window's configuration fields. -/
structure AppConfig where
  server_url : String
  api_key : String
  use_direct_arxiv : Bool
  use_local_network : Bool
  local_server_url : String
  local_api_key : String
  external_server_url : String
  external_api_key : String
deriving DecidableEq

/-- `load_config`: copy the persisted values, then override the active
url/key pair when direct-arXiv mode is on. -/
def load_config (s : Settings) : AppConfig :=
  let c : AppConfig :=
    { server_url := s.serverUrl
      api_key := s.apiKey
      use_direct_arxiv := s.useDirectArxiv
      use_local_network := s.useLocalNetwork
      local_server_url := s.localServerUrl
      local_api_key := s.localApiKey
      external_server_url := s.externalServerUrl
      external_api_key := s.externalApiKey }
  if s.useDirectArxiv then
    { c with server_url := "https://export.arxiv.org/api/query", api_key := "" }
  else c

/-- `switch_mode`: no-op when the mode is unchanged; switching to direct
mode installs the fixed arXiv endpoint and an empty key; switching to
server mode installs the url/key pair of the active network profile. -/
def switch_mode (c : AppConfig) (use_direct_arxiv : Bool) : AppConfig :=
  if c.use_direct_arxiv = use_direct_arxiv then c
  else
    let c := { c with use_direct_arxiv := use_direct_arxiv }
    if use_direct_arxiv then
      { c with server_url := "https://export.arxiv.org/api/query", api_key := "" }
    else if c.use_local_network then
      { c with server_url := c.local_server_url, api_key := c.local_api_key }
    else
      { c with server_url := c.external_server_url, api_key := c.external_api_key }

/-- State of the settings dialog that `get_active_api_key` reads. -/
structure DialogState where
  directChecked : Bool
  localChecked : Bool
  localKey : String
  externalKey : String

/-- `ConfigDialog.get_active_api_key`: empty in direct-arXiv mode,
otherwise the key of the selected network profile. -/
def get_active_api_key (d : DialogState) : String :=
  if d.directChecked then ""
  else if d.localChecked then d.localKey
  else d.externalKey

/-- The invariant of the spec: the active api key is empty whenever the
mode is direct-arXiv. -/
def keyInvariant (c : AppConfig) : Prop :=
  c.use_direct_arxiv = true → c.api_key = ""

instance (c : AppConfig) : Decidable (keyInvariant c) := by
  unfold keyInvariant; infer_instance

/-! ## DownloadOrchestrator
(`client.MainWindow.download_from_arxiv`,
`client.MainWindow.download_via_server`).

Each record's processing consumes one `DirectEnv` / `ServerEnv` cell of an
environment oracle `Nat → Env` describing, for that loop iteration, the
cancellation flags observed, the transport result of each request, the
decoded resolution response (proxied mode) and whether the file write
raises.  Each branch of the loop body is labelled with an `Outcome`
constructor so the orchestration control flow (which branch ran, whether
the loop went on, how `completed` and the number of issued requests
evolve) is observable; the Python source keeps only the `completed`
counter, so the outcome list is exactly this instrumented branch trace. -/

/-- Download record as consumed by the download loops: the values of
`paper.get("title", ...)`, `paper.get("entry_id", "")` and
`paper.get("pdf_url")`. -/
structure DlRecord where
  title : String
  entry_id : String
  pdf_url : Option String

/-- Branch labels of one loop iteration. -/
inductive Outcome where
  | saved
  | skipped
  | failed
  | aborted
deriving DecidableEq

/-- Observable aggregate of one batch: the per-iteration branch trace, the
`completed` counter, and how many network requests were issued. -/
structure BatchResult where
  outcomes : List Outcome
  completed : Nat
  requests : Nat
deriving DecidableEq

/-- Environment of one direct-mode iteration. -/
structure DirectEnv where
  cancelBefore : Bool
  cancelDuring : Bool
  netOk : Bool
  writeOk : Bool

/-- `paper_id = entry_id.split("/")[-1] if "/" in entry_id else entry_id`. -/
def extractPaperId (entry_id : String) : String :=
  if entry_id.data.any (fun c => c = '/') then (splitOnChar '/' entry_id).getLastD ""
  else entry_id

/-- Characters kept verbatim by the direct-mode filename sanitizer. -/
def isAllowedChar (c : Char) : Bool :=
  c.isAlphanum || c = '-' || c = '_' || c = '.' || c = ' '

/-- Sanitize one character: keep it when allowed, else replace by `_`. -/
def sanitizeChar (c : Char) : Char := if isAllowedChar c then c else '_'

/-- `safe_title`: sanitize every character of the title, then truncate to
50 characters (`[:50]`). -/
def safe_title (title : String) : String :=
  String.mk ((title.data.map sanitizeChar).take 50)

/-- The direct-mode output filename `{paper_id}_{safe_title}.pdf`. -/
def directFilename (paper_id title : String) : String :=
  paper_id ++ "_" ++ safe_title title ++ ".pdf"

/-- The direct-mode loop from iteration `i` on.  A signalled token at the
top of an iteration breaks the loop; a missing pdf url skips the record
with `continue`; otherwise one GET is issued and the record is saved
exactly when the transport succeeded, the token was not signalled while
the request was in flight, and the file write does not raise — a raising
write is caught by the per-record `except` and the loop goes on. -/
def runDirectFrom (env : Nat → DirectEnv) : Nat → List DlRecord → BatchResult
  | _, [] => ⟨[], 0, 0⟩
  | i, r :: rs =>
    let e := env i
    if e.cancelBefore then ⟨[], 0, 0⟩
    else
      match r.pdf_url with
      | none =>
        let rest := runDirectFrom env (i + 1) rs
        ⟨.skipped :: rest.outcomes, rest.completed, rest.requests⟩
      | some _ =>
        let rest := runDirectFrom env (i + 1) rs
        if e.cancelDuring then
          ⟨.aborted :: rest.outcomes, rest.completed, rest.requests + 1⟩
        else if e.netOk then
          if e.writeOk then
            ⟨.saved :: rest.outcomes, rest.completed + 1, rest.requests + 1⟩
          else
            ⟨.failed :: rest.outcomes, rest.completed, rest.requests + 1⟩
        else
          ⟨.failed :: rest.outcomes, rest.completed, rest.requests + 1⟩

/-- `download_from_arxiv`, batch entry point. -/
def download_from_arxiv (records : List DlRecord) (env : Nat → DirectEnv) : BatchResult :=
  runDirectFrom env 0 records

/-- Decoded `/download` resolution response: the truthiness of the
`success` field and the `download_link` field (absent or its string). -/
structure SrvResp where
  success : Bool
  download_link : Option String

/-- Environment of one proxied-mode iteration.  `resp = none` stands for a
POST body on which `json.loads` (or `.get` on a non-dict) raises — that
exception is not caught anywhere in `download_via_server`. -/
structure ServerEnv where
  cancelBefore : Bool
  cancelDuring1 : Bool
  net1Ok : Bool
  resp : Option SrvResp
  cancelDuring2 : Bool
  net2Ok : Bool
  writeOk : Bool

/-- The proxied-mode loop from iteration `i` on.  The POST to `/download`
is always issued; its transport failure or mid-flight cancellation just
ends the iteration.  A decodable response with falsy `success` or a falsy
link ends the iteration.  Otherwise the GET for the resolved link is
issued, and a successful, uncancelled transfer is written to disk: there
is no `try` in this function, so an undecodable response or a raising file
write propagates out of the loop and aborts the whole batch
(`Except.error`). -/
def runServerFrom (env : Nat → ServerEnv) : Nat → List DlRecord → Except Unit BatchResult
  | _, [] => .ok ⟨[], 0, 0⟩
  | i, _r :: rs =>
    let e := env i
    if e.cancelBefore then .ok ⟨[], 0, 0⟩
    else
      if e.net1Ok && !e.cancelDuring1 then
        match e.resp with
        | none => .error ()
        | some resp =>
          if resp.success then
            match resp.download_link with
            | some link =>
              if link ≠ "" then
                if e.cancelDuring2 then
                  (runServerFrom env (i + 1) rs).map fun rest =>
                    ⟨.aborted :: rest.outcomes, rest.completed, rest.requests + 2⟩
                else if e.net2Ok then
                  if e.writeOk then
                    (runServerFrom env (i + 1) rs).map fun rest =>
                      ⟨.saved :: rest.outcomes, rest.completed + 1, rest.requests + 2⟩
                  else .error ()
                else
                  (runServerFrom env (i + 1) rs).map fun rest =>
                    ⟨.failed :: rest.outcomes, rest.completed, rest.requests + 2⟩
              else
                (runServerFrom env (i + 1) rs).map fun rest =>
                  ⟨.failed :: rest.outcomes, rest.completed, rest.requests + 1⟩
            | none =>
              (runServerFrom env (i + 1) rs).map fun rest =>
                ⟨.failed :: rest.outcomes, rest.completed, rest.requests + 1⟩
          else
            (runServerFrom env (i + 1) rs).map fun rest =>
              ⟨.failed :: rest.outcomes, rest.completed, rest.requests + 1⟩
      else if e.cancelDuring1 then
        (runServerFrom env (i + 1) rs).map fun rest =>
          ⟨.aborted :: rest.outcomes, rest.completed, rest.requests + 1⟩
      else
        (runServerFrom env (i + 1) rs).map fun rest =>
          ⟨.failed :: rest.outcomes, rest.completed, rest.requests + 1⟩

/-- `download_via_server`, batch entry point. -/
def download_via_server (records : List DlRecord) (env : Nat → ServerEnv) :
    Except Unit BatchResult :=
  runServerFrom env 0 records

/-- Branch label of one direct-mode iteration, as a function of its record
and environment cell (used to characterize the loop's trace). -/
def directOutcome (e : DirectEnv) (r : DlRecord) : Outcome :=
  match r.pdf_url with
  | none => .skipped
  | some _ =>
    if e.cancelDuring then .aborted
    else if e.netOk then (if e.writeOk then .saved else .failed)
    else .failed

/-- In proxied mode, whether an iteration with this environment cell would
hit one of the two uncaught exceptions (undecodable resolution response,
or a raising file write after a successful transfer). -/
def srvRaises (e : ServerEnv) : Bool :=
  e.net1Ok && !e.cancelDuring1 &&
    (match e.resp with
     | none => true
     | some resp =>
       resp.success &&
         (match resp.download_link with
          | some link => link ≠ "" && !e.cancelDuring2 && e.net2Ok && !e.writeOk
          | none => false))

/-! ## Concrete fixtures used by the counterexamples and witnesses. -/

/-- A well-formed feed entry. -/
def goodEntry : XEntry :=
  { title := some "Paper One"
    summary := some "S"
    published := some "2023-04-12T12:34:56Z"
    updated := some "2023-04-13T00:00:00Z"
    authors := [some "Alice"]
    links := [⟨some "pdf", none, some "http://arxiv.org/pdf/1"⟩]
    idText := some (some "http://arxiv.org/abs/1")
    categories := [some "cs.LG"]
    doi := none
    journal_ref := none }

/-- `goodEntry` without its required `title` node. -/
def entryMissingTitle : XEntry := { goodEntry with title := none }

/-- The record `goodEntry` normalizes to. -/
def paperOne : Paper :=
  { title := "Paper One"
    authors := ["Alice"]
    summary := "S"
    published := "2023-04-12"
    updated := "2023-04-13"
    entry_id := some "http://arxiv.org/abs/1"
    pdf_url := some "http://arxiv.org/pdf/1"
    categories := ["cs.LG"]
    doi := "N/A"
    journal_ref := "N/A" }

/-- A download record with a pdf url. -/
def recA : DlRecord := ⟨"A", "http://arxiv.org/abs/1", some "http://arxiv.org/pdf/1"⟩

/-- A second download record with a pdf url. -/
def recB : DlRecord := ⟨"B", "http://arxiv.org/abs/2", some "http://arxiv.org/pdf/2"⟩

/-- A download record with no pdf url. -/
def recNoPdf : DlRecord := ⟨"C", "http://arxiv.org/abs/3", none⟩

/-- Direct-mode environment: never cancelled, every transfer and write
succeeds. -/
def envAllOk : Nat → DirectEnv := fun _ => ⟨false, false, true, true⟩

/-- Proxied-mode environment: never cancelled, both transfers succeed, the
resolution response is well-formed, but every file write raises. -/
def srvEnvWriteFail : Nat → ServerEnv :=
  fun _ => ⟨false, false, true, some ⟨true, some "files/p1.pdf"⟩, false, true, false⟩

/-- A 60-character title exceeding the cap and containing `/`, `:`, `*`. -/
def badTitle : String :=
  "a/b:c*d and a very long title that keeps going and going on!"

/-! ## Helper lemmas. -/

lemma intercalate_singleton (s x : String) : String.intercalate s [x] = x := rfl

lemma modeClause_precise : modeClause "precise" = preciseClause := rfl

lemma modeClause_fuzzy : modeClause "fuzzy" = fuzzyClause := rfl

lemma constructQueryList_eq_general (kl : List String) (mode : String) (h : kl ≠ []) :
    constructQueryList kl mode = generalQueryPath mode kl := by
  rcases kl with _ | ⟨k, _ | ⟨k2, ks⟩⟩
  · exact absurd rfl h
  · rfl
  · rfl

lemma sanitizeChar_allowed (c : Char) : isAllowedChar (sanitizeChar c) = true := by
  unfold sanitizeChar
  by_cases h : isAllowedChar c
  · simp [h]
  · simp [h]; decide

/-! ## Claims. -/

lemma parseEntry_error_of_missing {e : XEntry}
    (h : e.title = none ∨ e.summary = none ∨ e.published = none ∨ e.updated = none) :
    parseEntry e = .error () := by
  unfold parseEntry
  rcases h with h | h | h | h
  · rw [h]; rfl
  · cases h1 : reqText e.title with
    | error u => cases u; rfl
    | ok t1 => rw [h]; rfl
  · cases h1 : reqText e.title with
    | error u => cases u; rfl
    | ok t1 =>
      cases h2 : reqText e.summary with
      | error u => cases u; rfl
      | ok t2 => rw [h]; rfl
  · cases h1 : reqText e.title with
    | error u => cases u; rfl
    | ok t1 =>
      cases h2 : reqText e.summary with
      | error u => cases u; rfl
      | ok t2 =>
        cases h3 : reqText e.published with
        | error u => cases u; rfl
        | ok t3 => rw [h]; rfl

lemma parseEntry_missing_id {e : XEntry} {p : Paper} (hp : parseEntry e = .ok p)
    (hid : e.idText = none) : p.entry_id = some "" := by
  unfold parseEntry at hp
  rw [hid] at hp
  cases h1 : reqText e.title <;> rw [h1] at hp
  · cases hp
  · cases h2 : reqText e.summary <;> rw [h2] at hp
    · cases hp
    · cases h3 : reqText e.published <;> rw [h3] at hp
      · cases hp
      · cases h4 : reqText e.updated <;> rw [h4] at hp
        · cases hp
        · cases h5 : readAuthors e.authors <;> rw [h5] at hp
          · cases hp
          · cases hp; rfl

lemma parseEntries_error_of_mem {es : List XEntry} {e : XEntry} (he : e ∈ es)
    (hfail : parseEntry e = .error ()) : parseEntries es = .error () := by
  induction es with
  | nil => cases he
  | cons a as ih =>
    rcases List.mem_cons.mp he with rfl | hmem
    · simp [parseEntries, hfail]
    · cases h1 : parseEntry a with
      | error u => cases u; simp [parseEntries, h1]
      | ok p => simp [parseEntries, h1, ih hmem]

lemma runDirectFrom_trace (env : Nat → DirectEnv) (recs : List DlRecord)
    (h : ∀ j, (env j).cancelBefore = false) :
    ∀ i, (runDirectFrom env i recs).outcomes
      = (recs.enumFrom i).map (fun p => directOutcome (env p.1) p.2) := by
  induction recs with
  | nil => intro i; rfl
  | cons r rs ih =>
    intro i
    rw [List.enumFrom_cons, List.map_cons, ← ih (i + 1)]
    cases hr : r.pdf_url <;>
      by_cases hc : (env i).cancelDuring <;> by_cases hn : (env i).netOk <;>
      by_cases hw : (env i).writeOk <;>
      simp [runDirectFrom, h i, hr, directOutcome, hc, hn, hw]

lemma runDirectFrom_cancel_bound (env : Nat → DirectEnv) (recs : List DlRecord) (K : Nat)
    (hK : ∀ j, K ≤ j → (env j).cancelBefore = true) :
    ∀ i, (runDirectFrom env i recs).outcomes.length ≤ K - i ∧
      (runDirectFrom env i recs).requests ≤ K - i := by
  induction recs with
  | nil => intro i; simp [runDirectFrom]
  | cons r rs ih =>
    intro i
    by_cases hc : (env i).cancelBefore
    · simp [runDirectFrom, hc]
    · have hiK : i < K := by
        by_contra hge
        rw [hK i (Nat.le_of_not_lt hge)] at hc
        exact hc rfl
      have hrest := ih (i + 1)
      cases hr : r.pdf_url <;>
        by_cases hcd : (env i).cancelDuring <;> by_cases hn : (env i).netOk <;>
        by_cases hw : (env i).writeOk <;>
        simp [runDirectFrom, hc, hr, hcd, hn, hw] <;> omega

lemma runServerFrom_no_raise (env : Nat → ServerEnv) (recs : List DlRecord)
    (h : ∀ j, (env j).cancelBefore = false ∧ srvRaises (env j) = false) :
    ∀ i, ∃ res, runServerFrom env i recs = Except.ok res ∧
      res.outcomes.length = recs.length := by
  induction recs with
  | nil => intro i; exact ⟨⟨[], 0, 0⟩, rfl, rfl⟩
  | cons r rs ih =>
    intro i
    obtain ⟨res, hres, hlen⟩ := ih (i + 1)
    have hcb := (h i).1
    have hnr := (h i).2
    cases hcd1 : (env i).cancelDuring1 with
    | true =>
      refine ⟨⟨.aborted :: res.outcomes, res.completed, res.requests + 1⟩, ?_, ?_⟩
      · simp [runServerFrom, hcb, hcd1, hres, Except.map]
      · simp [hlen]
    | false =>
      cases hn1 : (env i).net1Ok with
      | false =>
        refine ⟨⟨.failed :: res.outcomes, res.completed, res.requests + 1⟩, ?_, ?_⟩
        · simp [runServerFrom, hcb, hcd1, hn1, hres, Except.map]
        · simp [hlen]
      | true =>
        cases hresp : (env i).resp with
        | none =>
          exfalso
          simp [srvRaises, hresp, hn1, hcd1] at hnr
        | some resp =>
          cases hsu : resp.success
          · refine ⟨⟨.failed :: res.outcomes, res.completed, res.requests + 1⟩, ?_, ?_⟩
            · simp [runServerFrom, hcb, hcd1, hn1, hresp, hsu, hres, Except.map]
            · simp [hlen]
          · cases hlink : resp.download_link with
            | none =>
              refine ⟨⟨.failed :: res.outcomes, res.completed, res.requests + 1⟩, ?_, ?_⟩
              · simp [runServerFrom, hcb, hcd1, hn1, hresp, hsu, hlink, hres, Except.map]
              · simp [hlen]
            | some l =>
              by_cases hl : l = ""
              · refine ⟨⟨.failed :: res.outcomes, res.completed, res.requests + 1⟩, ?_, ?_⟩
                · simp [runServerFrom, hcb, hcd1, hn1, hresp, hsu, hlink, hl, hres, Except.map]
                · simp [hlen]
              · cases hcd2 : (env i).cancelDuring2 with
                | true =>
                  refine ⟨⟨.aborted :: res.outcomes, res.completed, res.requests + 2⟩, ?_, ?_⟩
                  · simp [runServerFrom, hcb, hcd1, hn1, hresp, hsu, hlink, hl, hcd2, hres,
                      Except.map]
                  · simp [hlen]
                | false =>
                  cases hn2 : (env i).net2Ok with
                  | false =>
                    refine ⟨⟨.failed :: res.outcomes, res.completed, res.requests + 2⟩, ?_, ?_⟩
                    · simp [runServerFrom, hcb, hcd1, hn1, hresp, hsu, hlink, hl, hcd2, hn2,
                        hres, Except.map]
                    · simp [hlen]
                  | true =>
                    have hw : (env i).writeOk = true := by
                      by_contra hw0
                      rw [Bool.not_eq_true] at hw0
                      simp [srvRaises, hresp, hsu, hlink, hl, hcd1, hcd2, hn1, hn2, hw0] at hnr
                    refine ⟨⟨.saved :: res.outcomes, res.completed + 1, res.requests + 2⟩, ?_, ?_⟩
                    · simp [runServerFrom, hcb, hcd1, hn1, hresp, hsu, hlink, hl, hcd2, hn2,
                        hw, hres, Except.map]
                    · simp [hlen]

lemma runServerFrom_cancel_bound (env : Nat → ServerEnv) (recs : List DlRecord) (K : Nat)
    (hK : ∀ j, K ≤ j → (env j).cancelBefore = true) :
    ∀ i res, runServerFrom env i recs = Except.ok res →
      res.outcomes.length ≤ K - i ∧ res.requests ≤ 2 * (K - i) := by
  induction recs with
  | nil =>
    intro i res hres
    cases hres
    simp
  | cons r rs ih =>
    intro i res hres
    by_cases hc : (env i).cancelBefore = true
    · unfold runServerFrom at hres
      rw [if_pos hc] at hres
      cases hres
      simp
    · have hiK : i < K := by
        by_contra hge
        exact hc (hK i (Nat.le_of_not_lt hge))
      rw [Bool.not_eq_true] at hc
      unfold runServerFrom at hres
      simp only [hc, Bool.false_eq_true, if_false] at hres
      repeat' split at hres
      all_goals
        first
        | cases hres
        | (cases hrec : runServerFrom env (i + 1) rs with
           | error u => rw [hrec] at hres; cases hres
           | ok r0 =>
             rw [hrec] at hres
             cases hres
             have hr0 := ih (i + 1) r0 hrec
             simp only [Except.map, List.length_cons]
             constructor <;> omega)

/-- C6: the direct-mode year-range clause: with `startYear = 2015` and
`endYear = 2020` the emitted clause bounds the range to
`[20150101, 20201231]`; with only `startYear = 2015` the upper bound is the
unbounded-future value `99991231`; with neither year present no date clause
is appended to the query. -/
theorem claim6_year_range_clause :
    (∀ keywords search_mode,
      searchQueryDirect keywords search_mode none none = arxivApiBase keywords search_mode) ∧
    searchQueryDirect "deep" "precise" (some 2015) (some 2020)
      = arxivApiBase "deep" "precise" ++ " AND submittedDate:[20150101 TO 20201231]" ∧
    searchQueryDirect "deep" "precise" (some 2015) none
      = arxivApiBase "deep" "precise" ++ " AND submittedDate:[20150101 TO 99991231]" := by
  refine ⟨fun keywords search_mode => rfl, by decide, by decide⟩

/-- C10: for every single-keyword input and every search mode, the
dedicated single-keyword branch of `construct_query` produces exactly the
query string the general multi-keyword path (per-token clauses joined with
`" AND "`) produces for the one-element keyword list. -/
theorem claim10_single_keyword_branch_equals_general (keywords search_mode k : String)
    (h : pyTokens keywords = [k]) :
    construct_query keywords search_mode = generalQueryPath search_mode [k] := by
  unfold construct_query
  rw [h]
  exact constructQueryList_eq_general [k] search_mode (by simp)

/-- Witness for C10 at the single keyword `deep` in fuzzy mode. -/
theorem claim10_witness :
    construct_query "deep" "fuzzy" = generalQueryPath "fuzzy" ["deep"] :=
  claim10_single_keyword_branch_equals_general "deep" "fuzzy" "deep" (by decide)

/-- C1 fails on the code: the client's direct-mode builder
(`search_via_arxiv_api`) does not emit per-token title/abstract clauses
and, in fuzzy mode, joins its `all:"k"` terms with `" OR "`, not with
`" AND "`: on keywords `a b` it produces `all:"a" OR all:"b"`, which is
not the AND-join of the claimed per-token clauses. -/
theorem claim1_counterexample :
    searchQueryDirect "a b" "fuzzy" none none = "all:\"a\" OR all:\"b\"" ∧
    searchQueryDirect "a b" "fuzzy" none none ≠ generalQueryPath "fuzzy" ["a", "b"] := by
  refine ⟨by decide, by decide⟩

/-- C1 (amended): the server module's builder `construct_query` emits, per
token `k`, `(ti:k AND abs:k)` in precise mode and `(ti:k OR abs:k)` in
fuzzy mode and joins the per-token clauses with `" AND "` in both modes;
the client's direct-mode builder instead emits one `all:"k"` clause per
token, joined with `" AND "` in precise mode but `" OR "` in fuzzy mode. -/
theorem claim1_per_token_clauses (keywords : String) (h : pyTokens keywords ≠ []) :
    construct_query keywords "precise"
      = String.intercalate " AND " ((pyTokens keywords).map preciseClause) ∧
    construct_query keywords "fuzzy"
      = String.intercalate " AND " ((pyTokens keywords).map fuzzyClause) ∧
    arxivApiBase keywords "precise"
      = String.intercalate " AND " ((pySplitWs keywords).map allClause) ∧
    arxivApiBase keywords "fuzzy"
      = String.intercalate " OR " ((pySplitWs keywords).map allClause) := by
  refine ⟨?_, ?_, rfl, rfl⟩
  · have := constructQueryList_eq_general (pyTokens keywords) "precise" h
    unfold construct_query
    rw [this, generalQueryPath, modeClause_precise]
  · have := constructQueryList_eq_general (pyTokens keywords) "fuzzy" h
    unfold construct_query
    rw [this, generalQueryPath, modeClause_fuzzy]

/-- Witness for C1 (amended) at keywords `a b`. -/
theorem claim1_witness :
    construct_query "a b" "precise"
      = String.intercalate " AND " ((pyTokens "a b").map preciseClause) :=
  (claim1_per_token_clauses "a b" (by decide)).1

/-- C8: the direct-mode filename derivation keeps only alphanumerics,
space, `-`, `_` and `.`, replaces every other character with `_`, caps the
sanitized title at 50 characters (so the whole name stays within
`paper_id.length + 55`), and produces `paper_id_safeTitle.pdf`; in
particular the 60-character title `badTitle` containing `/`, `:`, `*`
yields a filename made of allowed characters only and within the bound. -/
theorem claim8_filename_sanitization :
    (∀ title : String, (safe_title title).data.all isAllowedChar = true) ∧
    (∀ title : String, (safe_title title).length ≤ 50) ∧
    (∀ paper_id title : String,
      directFilename paper_id title = paper_id ++ "_" ++ safe_title title ++ ".pdf" ∧
      (directFilename paper_id title).length ≤ paper_id.length + 55) ∧
    ((safe_title badTitle).data.all isAllowedChar = true ∧
      (directFilename "2301.00001v1" badTitle).length ≤ 67) := by
  have hall : ∀ title : String, (safe_title title).data.all isAllowedChar = true := by
    intro title
    rw [List.all_eq_true]
    intro c hc
    have hc' : c ∈ title.data.map sanitizeChar := List.mem_of_mem_take hc
    obtain ⟨c0, _, rfl⟩ := List.mem_map.mp hc'
    exact sanitizeChar_allowed c0
  have hlen : ∀ title : String, (safe_title title).length ≤ 50 := by
    intro title
    show ((title.data.map sanitizeChar).take 50).length ≤ 50
    rw [List.length_take]
    omega
  refine ⟨hall, hlen, ?_, hall badTitle, ?_⟩
  · intro paper_id title
    refine ⟨rfl, ?_⟩
    have h1 : (directFilename paper_id title).length
        = paper_id.length + 1 + (safe_title title).length + 4 := by
      simp [directFilename, String.length_append]
      have hu : ("_" : String).length = 1 := rfl
      have hp : (".pdf" : String).length = 4 := rfl
      omega
    have := hlen title
    omega
  · have h1 : (directFilename "2301.00001v1" badTitle).length
        = 12 + 1 + (safe_title badTitle).length + 4 := by
      simp [directFilename, String.length_append]
      have hu : ("2301.00001v1_" : String).length = 13 := rfl
      have hp : (".pdf" : String).length = 4 := rfl
      omega
    have h2 : (safe_title badTitle).length ≤ 50 := hlen badTitle
    omega

/-- C9: the operations that set or switch the active mode keep the
invariant that the active api key is empty whenever the mode is
direct-arXiv: `load_config` establishes it from any persisted settings,
`switch_mode` preserves it, and the settings dialog's
`get_active_api_key` reads an empty key in direct mode. -/
theorem claim9_direct_mode_key_invariant :
    (∀ s : Settings, keyInvariant (load_config s)) ∧
    (∀ (c : AppConfig) (b : Bool), keyInvariant c → keyInvariant (switch_mode c b)) ∧
    (∀ d : DialogState, d.directChecked = true → get_active_api_key d = "") := by
  refine ⟨?_, ?_, ?_⟩
  · intro s
    unfold keyInvariant load_config
    cases h : s.useDirectArxiv <;> simp [h]
  · intro c b hc
    unfold keyInvariant switch_mode at *
    by_cases he : c.use_direct_arxiv = b
    · simp [he]
      rw [he] at hc
      exact hc
    · cases b <;> cases hl : c.use_local_network <;> simp [he, hl]
  · intro d hd
    simp [get_active_api_key, hd]

/-- Witness for C9: the invariant holds after loading direct-mode
settings, after a mode switch from a direct-mode state, and the dialog
key read is empty with the direct radio checked. -/
theorem claim9_witness :
    keyInvariant (load_config ⟨"u", "sk", true, false, "lu", "lk", "eu", "ek"⟩) ∧
    keyInvariant (switch_mode ⟨"u", "", true, false, "lu", "lk", "eu", "ek"⟩ false) ∧
    get_active_api_key ⟨true, false, "lk", "ek"⟩ = "" :=
  ⟨claim9_direct_mode_key_invariant.1 _,
   claim9_direct_mode_key_invariant.2.1 _ false (by decide),
   claim9_direct_mode_key_invariant.2.2 _ rfl⟩

/-- C5 fails on the code: an envelope that is a JSON object but has no
`success` flag is not a parse error — `response.get("success", False)`
defaults to false, so the call takes the backend-error branch with the
default message. -/
theorem claim5_counterexample :
    display_results (some (Json.obj [("papers", Json.arr [])]))
      = DisplayResult.backendError "未知错误" ∧
    display_results (some (Json.obj [("papers", Json.arr [])]))
      ≠ DisplayResult.parseError :=
  ⟨rfl, fun h => DisplayResult.noConfusion h⟩

/-- C5 (amended): `success = false` fails with a backend error carrying
the server-supplied message (or the default unknown-error message when the
`error` field is absent); a decoded body that is not a JSON object fails
with a parse error; a JSON object missing the `success` flag is treated as
`success = false` and fails with the default backend error, not a parse
error; an undecodable body fails with a parse error. -/
theorem claim5_envelope_errors :
    (∀ (fields : List (String × Json)) (msg : String),
      fields.lookup "success" = some (Json.bool false) →
      fields.lookup "error" = some (Json.str msg) →
      display_results (some (Json.obj fields)) = DisplayResult.backendError msg) ∧
    (∀ j : Json, j.isObj = false → display_results (some j) = DisplayResult.parseError) ∧
    (∀ fields : List (String × Json),
      fields.lookup "success" = none → fields.lookup "error" = none →
      display_results (some (Json.obj fields)) = DisplayResult.backendError "未知错误") ∧
    display_results none = DisplayResult.parseError := by
  refine ⟨?_, ?_, ?_, rfl⟩
  · intro fields msg h1 h2
    simp [display_results, h1, h2, Json.truthy]
  · intro j hj
    cases j <;> simp_all [display_results, Json.isObj]
  · intro fields h1 h2
    simp [display_results, h1, h2, Json.truthy]

/-- Witness for C5 (amended): the envelope
`{success: false, error: "bad query"}` yields the backend error
`bad query`. -/
theorem claim5_witness :
    display_results (some (Json.obj [("success", Json.bool false), ("error", Json.str "bad query")]))
      = DisplayResult.backendError "bad query" :=
  claim5_envelope_errors.1 _ "bad query" rfl rfl

/-- C2 fails on the code: an entry missing its required `title` node is
not dropped — the raised `AttributeError` propagates out of the entry loop
and fails the whole parse, losing the well-formed entries too (`goodEntry`
alone parses to one record, but paired with `entryMissingTitle` the whole
call errors instead of yielding that record). -/
theorem claim2_counterexample :
    parse_arxiv_api_response (some [goodEntry, entryMissingTitle]) = Except.error () ∧
    parse_arxiv_api_response (some [goodEntry]) = Except.ok [paperOne] :=
  ⟨rfl, rfl⟩

/-- C2 (amended): an entry missing a required `title`, `summary`,
`published` or `updated` node fails the whole parse with an error (no
record at all is produced, entries are not dropped individually); an
unparsable document likewise fails the whole call and yields zero records;
an entry missing its `id` node is kept, with an empty `entry_id`. -/
theorem claim2_required_fields (xml : List XEntry) (e : XEntry) (he : e ∈ xml)
    (hmiss : e.title = none ∨ e.summary = none ∨ e.published = none ∨ e.updated = none) :
    parse_arxiv_api_response (some xml) = Except.error () ∧
    parse_arxiv_api_response (none : Option (List XEntry)) = Except.error () ∧
    ∀ (e2 : XEntry) (p : Paper), parseEntry e2 = Except.ok p → e2.idText = none →
      p.entry_id = some "" :=
  ⟨parseEntries_error_of_mem he (parseEntry_error_of_missing hmiss), rfl,
   fun _ _ hp hid => parseEntry_missing_id hp hid⟩

/-- Witness for C2 (amended): a one-entry feed whose entry lacks `title`
makes the whole parse fail. -/
theorem claim2_witness :
    parse_arxiv_api_response (some [entryMissingTitle]) = Except.error () :=
  (claim2_required_fields [entryMissingTitle] entryMissingTitle
    (List.mem_singleton.mpr rfl) (Or.inl rfl)).1

/-- C3 fails on the code: in proxied mode nothing catches a file-write
error at the record boundary — with two records whose resolution and
transfers succeed but whose save raises, the whole batch aborts with an
exception instead of recording `Failed` and continuing to the second
record. -/
theorem claim3_counterexample :
    download_via_server [recA, recB] srvEnvWriteFail = Except.error () := rfl

/-- C3 (amended): in direct mode every per-record error is contained at
the record boundary — with no cancellation the loop labels every record
(`skipped`/`saved`/`failed`/`aborted` exactly as `directOutcome` states)
and never shortens the batch.  In proxied mode, transport errors and
resolution failures are likewise contained per record (with none of the
two uncaught exception sources firing, the loop yields one outcome per
record), but a raising file write or an undecodable resolution response
propagates and aborts the remaining batch (see the counterexample). -/
theorem claim3_per_record_error_containment :
    (∀ (recs : List DlRecord) (env : Nat → DirectEnv),
      (∀ j, (env j).cancelBefore = false) →
      (download_from_arxiv recs env).outcomes
        = (recs.enumFrom 0).map (fun p => directOutcome (env p.1) p.2) ∧
      (download_from_arxiv recs env).outcomes.length = recs.length) ∧
    (∀ (recs : List DlRecord) (env : Nat → ServerEnv),
      (∀ j, (env j).cancelBefore = false ∧ srvRaises (env j) = false) →
      ∃ res, download_via_server recs env = Except.ok res ∧
        res.outcomes.length = recs.length) := by
  constructor
  · intro recs env h
    have ht := runDirectFrom_trace env recs h 0
    refine ⟨ht, ?_⟩
    show (runDirectFrom env 0 recs).outcomes.length = recs.length
    rw [ht]
    simp
  · intro recs env h
    exact runServerFrom_no_raise env recs h 0

/-- Witness for C3 (amended): a direct-mode batch of two records whose
file writes all fail still yields one outcome per record. -/
theorem claim3_witness :
    (download_from_arxiv [recA, recB] (fun _ => ⟨false, false, true, false⟩)).outcomes.length = 2 :=
  (claim3_per_record_error_containment.1 [recA, recB]
    (fun _ => ⟨false, false, true, false⟩) (fun _ => rfl)).2

/-- C4: in direct-mode batch download, a record without a pdf url is
skipped and the loop continues: with no cancellation the outcome sequence
has one entry per record and every no-url record's entry is `skipped`; in
particular for `[recA, recNoPdf]` with a succeeding transfer the outcome
sequence is `[saved, skipped]` (length 2, second entry skipped) and the
completed count is 1. -/
theorem claim4_skip_missing_pdf_url :
    (∀ (recs : List DlRecord) (env : Nat → DirectEnv),
      (∀ j, (env j).cancelBefore = false) →
      (download_from_arxiv recs env).outcomes.length = recs.length ∧
      ∀ i, (hi : i < recs.length) → recs[i].pdf_url = none →
        (download_from_arxiv recs env).outcomes[i]? = some Outcome.skipped) ∧
    download_from_arxiv [recA, recNoPdf] envAllOk
      = ⟨[Outcome.saved, Outcome.skipped], 1, 1⟩ := by
  constructor
  · intro recs env h
    have ht := runDirectFrom_trace env recs h 0
    constructor
    · show (runDirectFrom env 0 recs).outcomes.length = recs.length
      rw [ht]; simp
    · intro i hi hp
      show (runDirectFrom env 0 recs).outcomes[i]? = some Outcome.skipped
      rw [ht, List.getElem?_map, List.getElem?_enumFrom, List.getElem?_eq_getElem hi]
      simp [directOutcome, hp]
  · rfl

/-- Witness for C4: in the two-record batch the second record (no pdf
url) gets the `skipped` outcome. -/
theorem claim4_witness :
    (download_from_arxiv [recA, recNoPdf] envAllOk).outcomes[1]? = some Outcome.skipped :=
  (claim4_skip_missing_pdf_url.1 [recA, recNoPdf] envAllOk (fun _ => rfl)).2 1
    (by decide) rfl

/-- C7: once the cancellation token is signalled (from iteration `K` on,
the token stays signalled), both download loops stop before starting the
next record's work: at most `K` outcomes are recorded (remaining records
are absent, not skipped) and no request of a later iteration is issued —
at most `K` requests in direct mode and at most `2K` in proxied mode. -/
theorem claim7_cancellation_stops_batch (recs : List DlRecord)
    (denv : Nat → DirectEnv) (senv : Nat → ServerEnv) (K : Nat)
    (hd : ∀ j, K ≤ j → (denv j).cancelBefore = true)
    (hs : ∀ j, K ≤ j → (senv j).cancelBefore = true) :
    (download_from_arxiv recs denv).outcomes.length ≤ K ∧
    (download_from_arxiv recs denv).requests ≤ K ∧
    ∀ res, download_via_server recs senv = Except.ok res →
      res.outcomes.length ≤ K ∧ res.requests ≤ 2 * K := by
  have h1 := runDirectFrom_cancel_bound denv recs K hd 0
  have h2 := runServerFrom_cancel_bound senv recs K hs 0
  simp only [Nat.sub_zero] at h1 h2
  exact ⟨h1.1, h1.2, h2⟩

/-- Witness for C7: five records with the token signalled from the third
iteration on give at most two outcomes and at most two direct-mode (four
proxied-mode) requests. -/
theorem claim7_witness :
    (download_from_arxiv [recA, recB, recA, recB, recA]
        (fun j => ⟨decide (2 ≤ j), false, true, true⟩)).outcomes.length ≤ 2 ∧
    (download_from_arxiv [recA, recB, recA, recB, recA]
        (fun j => ⟨decide (2 ≤ j), false, true, true⟩)).requests ≤ 2 ∧
    ∀ res, download_via_server [recA, recB, recA, recB, recA]
        (fun j => ⟨decide (2 ≤ j), false, true, some ⟨true, some "f.pdf"⟩, false, true, true⟩)
        = Except.ok res →
      res.outcomes.length ≤ 2 ∧ res.requests ≤ 2 * 2 :=
  claim7_cancellation_stops_batch [recA, recB, recA, recB, recA] _ _ 2
    (fun j hj => by simp [hj]) (fun j hj => by simp [hj])

end ArxivClient
